import Mathlib

/-!
Verification of the real-time chat subsystem of the flow backend
(src/index.js, src/controllers: isProjectMember / getChatHistory,
src/database/initDb.js schema).

The JavaScript handlers are embedded as pure Lean functions: process-wide
mutable maps become association lists threaded through the handlers, and
socket emissions become an explicit list of `Emit` values returned by each
handler.  Timestamps are naturals (milliseconds).
-/

/-! ## JavaScript Map model

`Map` objects (userMessageRateLimit, typingUsers and its inner per-project
maps) are modelled as association lists.  A real `Map` holds at most one
entry per key; `aset` replaces in place (set), `adel` removes the key's
entries (delete), `alookup` reads the first entry (get).  On key-unique
lists these agree exactly with the `Map` operations. -/

def alookup {α : Type} (k : Nat) : List (Nat × α) → Option α
  | [] => none
  | (k', v) :: r => if k' = k then some v else alookup k r

def aset {α : Type} (k : Nat) (v : α) : List (Nat × α) → List (Nat × α)
  | [] => [(k, v)]
  | (k', v') :: r => if k' = k then (k, v) :: r else (k', v') :: aset k v r

def adel {α : Type} (k : Nat) (m : List (Nat × α)) : List (Nat × α) :=
  m.filter (fun e => e.1 ≠ k)

theorem adel_cons {α : Type} (k : Nat) (e : Nat × α) (r : List (Nat × α)) :
    adel k (e :: r) = if e.1 = k then adel k r else e :: adel k r := by
  by_cases h : e.1 = k <;> simp [adel, List.filter_cons, h]

theorem alookup_aset_self {α : Type} (k : Nat) (v : α) (m : List (Nat × α)) :
    alookup k (aset k v m) = some v := by
  induction m with
  | nil => simp [aset, alookup]
  | cons e r ih =>
    by_cases h : e.1 = k
    · simp [aset, h, alookup]
    · simp [aset, h, alookup, ih]

theorem alookup_aset_ne {α : Type} {q k : Nat} (h : q ≠ k) (v : α) (m : List (Nat × α)) :
    alookup q (aset k v m) = alookup q m := by
  have hk : ¬ k = q := fun hh => h hh.symm
  induction m with
  | nil => simp [aset, alookup, hk]
  | cons e r ih =>
    by_cases he : e.1 = k
    · subst he
      simp [aset, alookup, hk]
    · by_cases hq : e.1 = q
      · simp [aset, he, alookup, hq, hk, h]
      · simp [aset, he, alookup, hq, ih]

theorem alookup_adel_self {α : Type} (k : Nat) (m : List (Nat × α)) :
    alookup k (adel k m) = none := by
  induction m with
  | nil => simp [adel, alookup]
  | cons e r ih =>
    rw [adel_cons]
    by_cases h : e.1 = k
    · simpa [h] using ih
    · simp [h, alookup, ih]

theorem alookup_adel_ne {α : Type} {q k : Nat} (h : q ≠ k) (m : List (Nat × α)) :
    alookup q (adel k m) = alookup q m := by
  have hk : ¬ k = q := fun hh => h hh.symm
  induction m with
  | nil => simp [adel, alookup]
  | cons e r ih =>
    rw [adel_cons]
    by_cases he : e.1 = k
    · have hq : ¬ e.1 = q := by rw [he]; exact hk
      simp [he, alookup, hq, ih, hk]
    · by_cases hq : e.1 = q
      · simp [he, alookup, hq, hk, h]
      · simp [he, alookup, hq, ih]

theorem alookup_of_adel_nil {α : Type} {k v : Nat} (m : List (Nat × α))
    (hnil : adel k m = []) (hv : v ≠ k) : alookup v m = none := by
  induction m with
  | nil => simp [alookup]
  | cons e r ih =>
    rw [adel_cons] at hnil
    by_cases he : e.1 = k
    · rw [if_pos he] at hnil
      have hev : ¬ e.1 = v := by rw [he]; exact fun hh => hv hh.symm
      simp [alookup, hev, ih hnil]
    · rw [if_neg he] at hnil
      exact absurd hnil (List.cons_ne_nil e (adel k r))

/-! ## Database model (src/database/initDb.js)

Rows of the tables the chat subsystem touches.  DATETIME columns are
naturals; the INTEGER soft-delete flag is a Bool (0/1). -/

structure ProjectRow where
  id : Nat
  authorId : Nat
  deriving DecidableEq, Repr

structure ProjectMemberRow where
  projectId : Nat
  userId : Nat
  invitationStatus : String
  deriving DecidableEq, Repr

structure ChatMessage where
  id : Nat
  projectId : Nat
  senderId : Nat
  senderName : String
  messageContent : String
  replyToMessageId : Option Nat
  replyToUserId : Option Nat
  replyToUserName : Option String
  replyToMessageContent : Option String
  messageStatus : String
  isDeleted : Bool
  editedAt : Option Nat
  createdAt : Nat
  updatedAt : Nat
  deriving DecidableEq, Repr

/-- Database state: the three tables the chat subsystem reads or writes,
plus the AUTOINCREMENT counter of ChatMessages.id. -/
structure Db where
  projects : List ProjectRow
  members : List ProjectMemberRow
  chatMessages : List ChatMessage
  nextMessageId : Nat
  deriving DecidableEq, Repr

/-- Embedding of isProjectMember (controllers, chat helper): the SQL query
SELECT pm.*, p.authorId FROM ProjectMembers pm JOIN Projects p ON
p.id = pm.projectId WHERE pm.projectId = ? AND pm.userId = ? AND
pm.invitationStatus = 'approved' yields a row — hence a truthy
membership — exactly when such a joined row exists. -/
def isProjectMember (db : Db) (projectId userId : Nat) : Bool :=
  db.members.any (fun pm =>
    pm.projectId == projectId && pm.userId == userId &&
    pm.invitationStatus == "approved" &&
    db.projects.any (fun pr => pr.id == pm.projectId))

/-! ## Emitted socket events

Each handler returns the list of socket emissions it performs, in order.
`unicast` is socket.emit to the originating connection, `roomAll` is
io.to(room).emit (every connection in the room, sender included),
`roomOthers` is socket.to(room).emit (room minus the sender). -/

inductive Payload where
  | errMsg (message : String)
  | userJoined (userId : Nat) (userName : String) (timestamp : Nat)
  | userTyping (userId : Nat) (userName : String)
  | userStopped (userId : Nat)
  | newMessage (m : ChatMessage)
  | messageEdited (m : ChatMessage)
  | messageDeleted (messageId : Nat)
  | userLeft (userId : Nat) (userName : String) (timestamp : Nat)
  deriving DecidableEq, Repr

inductive Emit where
  | unicast (event : String) (p : Payload)
  | roomAll (room : String) (event : String) (p : Payload)
  | roomOthers (room : String) (event : String) (p : Payload)
  deriving DecidableEq, Repr

/-- Room name for a project chat, as built by the source: backtick template
project-$\x7bprojectId\x7d. -/
def roomName (projectId : Nat) : String := "project-" ++ toString projectId

/-! ## Typing-presence tracker (src/index.js lines 67-68, 199-221, 353-369)

The source keeps typingUsers : Map projectId -> (Map userId -> timeout)
plus the set of scheduled-and-not-cancelled setTimeout timers managed by
the runtime.  The state below mirrors both: liveTimers is the list of
timer handles that have been created by setTimeout and not yet cancelled
by clearTimeout or fired; nextTimer is a fresh-handle counter. -/

structure TypingState where
  typingUsers : List (Nat × List (Nat × Nat))
  liveTimers : List Nat
  nextTimer : Nat
  deriving DecidableEq, Repr

def typingInit : TypingState := { typingUsers := [], liveTimers := [], nextTimer := 0 }

/-- Embedding of the helper clearTypingIndicator (index.js 353-369): if the
project map exists and holds an entry for the user, cancel its timer
(clearTimeout), delete the entry, emit user-stopped-typing to the whole
room via io.to, and drop the project map when it became empty. -/
def clearTypingIndicator (ts : TypingState) (projectId userId : Nat) :
    TypingState × List Emit :=
  match alookup projectId ts.typingUsers with
  | none => (ts, [])
  | some projectTyping =>
    match alookup userId projectTyping with
    | none => (ts, [])
    | some t =>
      let projectTyping' := adel userId projectTyping
      let typingUsers' :=
        if projectTyping'.isEmpty then adel projectId ts.typingUsers
        else aset projectId projectTyping' ts.typingUsers
      ({ typingUsers := typingUsers',
         liveTimers := ts.liveTimers.erase t,
         nextTimer := ts.nextTimer },
       [Emit.roomAll (roomName projectId) "user-stopped-typing" (Payload.userStopped userId)])

/-- Embedding of the typing event handler (index.js 199-216): clear any
existing entry, ensure the project map exists, schedule a fresh 3 second
auto-expiry timer, store it under the user, and notify the others in the
room.  The handler never consults the connection's join state. -/
def typingHandler (ts : TypingState) (projectId userId : Nat) (userName : String) :
    TypingState × List Emit :=
  let cleared := clearTypingIndicator ts projectId userId
  let ts1 := cleared.1
  let base :=
    match alookup projectId ts1.typingUsers with
    | none => aset projectId ([] : List (Nat × Nat)) ts1.typingUsers
    | some _ => ts1.typingUsers
  let t := ts1.nextTimer
  let projectTyping := (alookup projectId base).getD []
  ({ typingUsers := aset projectId (aset userId t projectTyping) base,
     liveTimers := ts1.liveTimers ++ [t],
     nextTimer := t + 1 },
   cleared.2 ++
     [Emit.roomOthers (roomName projectId) "user-typing" (Payload.userTyping userId userName)])

/-- Embedding of the stop-typing event handler (index.js 219-221). -/
def stopTypingHandler (ts : TypingState) (projectId userId : Nat) :
    TypingState × List Emit :=
  clearTypingIndicator ts projectId userId

/-- Observable typing entry of (projectId, userId): the timer handle held in
the nested map, if any. -/
def typingEntry (ts : TypingState) (p u : Nat) : Option Nat :=
  match alookup p ts.typingUsers with
  | none => none
  | some l => alookup u l

theorem typingEntry_init (p u : Nat) : typingEntry typingInit p u = none := by
  simp [typingEntry, typingInit, alookup]

/-- Clearing (p, u) empties exactly that observable entry and leaves every
other (q, v) entry unchanged. -/
theorem clear_typingEntry (ts : TypingState) (p u q v : Nat) :
    typingEntry (clearTypingIndicator ts p u).1 q v =
      if q = p ∧ v = u then none else typingEntry ts q v := by
  unfold clearTypingIndicator
  cases hp : alookup p ts.typingUsers with
  | none =>
    simp only [typingEntry]
    by_cases hq : q = p
    · subst hq
      simp [hp]
    · simp [hq]
  | some l =>
    cases hu : alookup u l with
    | none =>
      simp only [hu, typingEntry]
      by_cases hq : q = p
      · subst hq
        by_cases hv : v = u
        · subst hv
          simp [hp, hu]
        · simp [hp, hv]
      · simp [hq]
    | some t =>
      simp only [hu, typingEntry]
      cases hadel : adel u l with
      | nil =>
        simp only [List.isEmpty_nil, if_true]
        by_cases hq : q = p
        · subst hq
          rw [alookup_adel_self]
          by_cases hv : v = u
          · simp [hv]
          · simp only [hv, and_false, if_false, hp]
            exact (alookup_of_adel_nil l hadel hv).symm
        · rw [alookup_adel_ne hq]
          simp [hq]
      | cons a b =>
        simp only [List.isEmpty_cons, Bool.false_eq_true, if_false]
        by_cases hq : q = p
        · subst hq
          rw [alookup_aset_self]
          by_cases hv : v = u
          · subst hv
            simp only [and_self, if_true]
            show alookup v (a :: b) = none
            rw [← hadel]
            exact alookup_adel_self v l
          · simp only [hv, and_false, if_false, hp]
            show alookup v (a :: b) = alookup v l
            rw [← hadel]
            exact alookup_adel_ne hv l
        · rw [alookup_aset_ne hq]
          simp [hq]

/-- Clearing cancels exactly the cleared entry's timer. -/
theorem clear_liveTimers (ts : TypingState) (p u : Nat) :
    (clearTypingIndicator ts p u).1.liveTimers =
      match typingEntry ts p u with
      | some t => ts.liveTimers.erase t
      | none => ts.liveTimers := by
  unfold clearTypingIndicator typingEntry
  cases hp : alookup p ts.typingUsers with
  | none => simp
  | some l =>
    cases hu : alookup u l with
    | none => simp [hu]
    | some t =>
      cases hadel : adel u l with
      | nil => simp [hu]
      | cons a b => simp [hu]

theorem clear_nextTimer (ts : TypingState) (p u : Nat) :
    (clearTypingIndicator ts p u).1.nextTimer = ts.nextTimer := by
  unfold clearTypingIndicator
  cases hp : alookup p ts.typingUsers with
  | none => simp
  | some l =>
    cases hu : alookup u l with
    | none => simp [hu]
    | some t =>
      cases hadel : adel u l with
      | nil => simp [hu]
      | cons a b => simp [hu]

/-- Emissions of the clearing helper: a single whole-room
user-stopped-typing broadcast when an entry existed, nothing otherwise. -/
theorem clear_emits (ts : TypingState) (p u : Nat) :
    (clearTypingIndicator ts p u).2 =
      match typingEntry ts p u with
      | some _ =>
          [Emit.roomAll (roomName p) "user-stopped-typing" (Payload.userStopped u)]
      | none => [] := by
  unfold clearTypingIndicator typingEntry
  cases hp : alookup p ts.typingUsers with
  | none => simp
  | some l =>
    cases hu : alookup u l with
    | none => simp [hu]
    | some t =>
      cases hadel : adel u l with
      | nil => simp [hu]
      | cons a b => simp [hu]

/-- A typing signal installs a fresh timer for (p, u) and leaves every other
observable entry as the clearing step left it. -/
theorem typing_typingEntry (ts : TypingState) (p u : Nat) (n : String) (q v : Nat) :
    typingEntry (typingHandler ts p u n).1 q v =
      if q = p ∧ v = u then some ts.nextTimer
      else typingEntry (clearTypingIndicator ts p u).1 q v := by
  have hnt := clear_nextTimer ts p u
  unfold typingHandler
  cases hb : alookup p (clearTypingIndicator ts p u).1.typingUsers with
  | none =>
    simp only [hb, typingEntry, hnt]
    by_cases hq : q = p
    · subst hq
      rw [alookup_aset_self, alookup_aset_self]
      simp only [Option.getD_some]
      by_cases hv : v = u
      · subst hv
        rw [alookup_aset_self]
        simp
      · rw [alookup_aset_ne hv]
        simp [hv, hb, alookup]
    · rw [alookup_aset_ne hq, alookup_aset_ne hq]
      simp [hq]
  | some l =>
    simp only [hb, typingEntry, hnt]
    by_cases hq : q = p
    · subst hq
      rw [alookup_aset_self, hb]
      simp only [Option.getD_some]
      by_cases hv : v = u
      · subst hv
        rw [alookup_aset_self]
        simp
      · rw [alookup_aset_ne hv]
        simp [hv]
    · rw [alookup_aset_ne hq]
      simp [hq]

/-- A typing signal appends exactly one freshly scheduled timer. -/
theorem typing_liveTimers (ts : TypingState) (p u : Nat) (n : String) :
    (typingHandler ts p u n).1.liveTimers =
      (clearTypingIndicator ts p u).1.liveTimers ++ [ts.nextTimer] := by
  have hnt := clear_nextTimer ts p u
  unfold typingHandler
  cases hb : alookup p (clearTypingIndicator ts p u).1.typingUsers with
  | none => simp [hb, hnt]
  | some l => simp [hb, hnt]

theorem typing_nextTimer (ts : TypingState) (p u : Nat) (n : String) :
    (typingHandler ts p u n).1.nextTimer = ts.nextTimer + 1 := by
  have hnt := clear_nextTimer ts p u
  unfold typingHandler
  cases hb : alookup p (clearTypingIndicator ts p u).1.typingUsers with
  | none => simp [hb, hnt]
  | some l => simp [hb, hnt]

/-- Emissions of a typing signal: whatever the clearing step emitted,
followed by one user-typing notification to the room minus the sender. -/
theorem typing_emits (ts : TypingState) (p u : Nat) (n : String) :
    (typingHandler ts p u n).2 =
      (clearTypingIndicator ts p u).2 ++
        [Emit.roomOthers (roomName p) "user-typing" (Payload.userTyping u n)] := by
  unfold typingHandler
  cases hb : alookup p (clearTypingIndicator ts p u).1.typingUsers with
  | none => simp [hb]
  | some l => simp [hb]

/-! ## Typing-presence invariant

TypingInv states that the scheduled-not-cancelled timers are exactly the
handles stored in the nested typing map, each stored under exactly one
(projectId, userId), and that stored handles are below the freshness
counter. -/

def TypingInv (ts : TypingState) : Prop :=
  ts.liveTimers.Nodup ∧
  (∀ t, t ∈ ts.liveTimers ↔ ∃ p u, typingEntry ts p u = some t) ∧
  (∀ p u p' u' t, typingEntry ts p u = some t → typingEntry ts p' u' = some t →
     p = p' ∧ u = u') ∧
  (∀ t ∈ ts.liveTimers, t < ts.nextTimer)

theorem typingInv_init : TypingInv typingInit := by
  refine ⟨List.nodup_nil, ?_, ?_, ?_⟩
  · intro t
    simp [typingInit, typingEntry, alookup]
  · intro p u p' u' t h1
    simp [typingInit, typingEntry, alookup] at h1
  · intro t ht
    simp [typingInit] at ht

theorem clear_typingInv (ts : TypingState) (p u : Nat) (h : TypingInv ts) :
    TypingInv (clearTypingIndicator ts p u).1 := by
  obtain ⟨hnd, hiff, hown, hfr⟩ := h
  cases he : typingEntry ts p u with
  | none =>
    have hent : ∀ q v, typingEntry (clearTypingIndicator ts p u).1 q v = typingEntry ts q v := by
      intro q v
      rw [clear_typingEntry]
      by_cases hq : q = p ∧ v = u
      · obtain ⟨h1, h2⟩ := hq
        subst h1; subst h2
        simp [he]
      · simp [hq]
    have hlive : (clearTypingIndicator ts p u).1.liveTimers = ts.liveTimers := by
      rw [clear_liveTimers, he]
    refine ⟨by rw [hlive]; exact hnd, ?_, ?_, ?_⟩
    · intro t
      rw [hlive]
      simp only [hent]
      exact hiff t
    · intro q v q' v' t h1 h2
      rw [hent] at h1 h2
      exact hown q v q' v' t h1 h2
    · intro t ht
      rw [hlive] at ht
      rw [clear_nextTimer]
      exact hfr t ht
  | some t0 =>
    have hlive : (clearTypingIndicator ts p u).1.liveTimers = ts.liveTimers.erase t0 := by
      rw [clear_liveTimers, he]
    refine ⟨by rw [hlive]; exact hnd.erase t0, ?_, ?_, ?_⟩
    · intro t
      rw [hlive, hnd.mem_erase_iff]
      constructor
      · rintro ⟨htne, htmem⟩
        obtain ⟨q, v, hqv⟩ := (hiff t).1 htmem
        refine ⟨q, v, ?_⟩
        rw [clear_typingEntry]
        have hne : ¬ (q = p ∧ v = u) := by
          rintro ⟨rfl, rfl⟩
          rw [hqv] at he
          exact htne (Option.some_injective _ he.symm).symm
        simp [hne, hqv]
      · rintro ⟨q, v, hqv⟩
        rw [clear_typingEntry] at hqv
        by_cases hne : q = p ∧ v = u
        · simp [hne] at hqv
        · simp only [hne, if_false] at hqv
          refine ⟨?_, (hiff t).2 ⟨q, v, hqv⟩⟩
          intro hEq
          subst hEq
          obtain ⟨hq, hv⟩ := hown q v p u t hqv he
          exact hne ⟨hq, hv⟩
    · intro q v q' v' t h1 h2
      rw [clear_typingEntry] at h1 h2
      by_cases hne : q = p ∧ v = u
      · simp [hne] at h1
      · by_cases hne' : q' = p ∧ v' = u
        · simp [hne'] at h2
        · simp only [hne, if_false] at h1
          simp only [hne', if_false] at h2
          exact hown q v q' v' t h1 h2
    · intro t ht
      rw [hlive] at ht
      rw [clear_nextTimer]
      exact hfr t (List.mem_of_mem_erase ht)

theorem typing_typingInv (ts : TypingState) (p u : Nat) (n : String) (h : TypingInv ts) :
    TypingInv (typingHandler ts p u n).1 := by
  have hc := clear_typingInv ts p u h
  obtain ⟨hnd, hiff, hown, hfr⟩ := hc
  have hcpu : typingEntry (clearTypingIndicator ts p u).1 p u = none := by
    rw [clear_typingEntry]
    simp
  have hfr' : ∀ t ∈ (clearTypingIndicator ts p u).1.liveTimers, t < ts.nextTimer := by
    intro t ht
    have := hfr t ht
    rwa [clear_nextTimer] at this
  have hlive := typing_liveTimers ts p u n
  have hnext := typing_nextTimer ts p u n
  refine ⟨?_, ?_, ?_, ?_⟩
  · rw [hlive]
    rw [List.nodup_append]
    refine ⟨hnd, List.nodup_singleton _, ?_⟩
    intro t ht ht'
    rw [List.mem_singleton] at ht'
    subst ht'
    exact absurd (hfr' _ ht) (lt_irrefl _)
  · intro t
    rw [hlive, List.mem_append, List.mem_singleton]
    constructor
    · rintro (htmem | rfl)
      · obtain ⟨q, v, hqv⟩ := (hiff t).1 htmem
        refine ⟨q, v, ?_⟩
        rw [typing_typingEntry]
        have hne : ¬ (q = p ∧ v = u) := by
          rintro ⟨rfl, rfl⟩
          rw [hqv] at hcpu
          exact Option.noConfusion hcpu
        simp [hne, hqv]
      · exact ⟨p, u, by rw [typing_typingEntry]; simp⟩
    · rintro ⟨q, v, hqv⟩
      rw [typing_typingEntry] at hqv
      by_cases hne : q = p ∧ v = u
      · rw [if_pos hne] at hqv
        right
        exact (Option.some_injective _ hqv).symm
      · rw [if_neg hne] at hqv
        left
        exact (hiff t).2 ⟨q, v, hqv⟩
  · intro q v q' v' t h1 h2
    rw [typing_typingEntry] at h1 h2
    by_cases hne : q = p ∧ v = u
    · rw [if_pos hne] at h1
      by_cases hne' : q' = p ∧ v' = u
      · exact ⟨hne.1.trans hne'.1.symm, hne.2.trans hne'.2.symm⟩
      · rw [if_neg hne'] at h2
        have hNt : t = ts.nextTimer := (Option.some_injective _ h1).symm
        have hlt := hfr' t ((hiff t).2 ⟨q', v', h2⟩)
        rw [hNt] at hlt
        exact absurd hlt (lt_irrefl _)
    · rw [if_neg hne] at h1
      by_cases hne' : q' = p ∧ v' = u
      · rw [if_pos hne'] at h2
        have hNt : t = ts.nextTimer := (Option.some_injective _ h2).symm
        have hlt := hfr' t ((hiff t).2 ⟨q, v, h1⟩)
        rw [hNt] at hlt
        exact absurd hlt (lt_irrefl _)
      · rw [if_neg hne'] at h2
        exact hown q v q' v' t h1 h2
  · intro t ht
    rw [hlive, List.mem_append, List.mem_singleton] at ht
    rw [hnext]
    cases ht with
    | inl htmem => exact Nat.lt_succ_of_lt (hfr' t htmem)
    | inr hEq => exact hEq ▸ Nat.lt_succ_self _

/-! ## Reachable typing states

A step is either a typing signal or a call to clearTypingIndicator; the
latter covers the stop-typing event, a successful send (index.js 187), the
disconnect handler (index.js 340) and the auto-expiry timer firing
(index.js 208-210), all of which invoke clearTypingIndicator. -/

inductive TypingReach : TypingState → Prop where
  | init : TypingReach typingInit
  | typing (p u : Nat) (n : String) {ts : TypingState} :
      TypingReach ts → TypingReach (typingHandler ts p u n).1
  | clear (p u : Nat) {ts : TypingState} :
      TypingReach ts → TypingReach (clearTypingIndicator ts p u).1

theorem typingReach_inv {ts : TypingState} (h : TypingReach ts) : TypingInv ts := by
  induction h with
  | init => exact typingInv_init
  | typing p u n _ ih => exact typing_typingInv _ p u n ih
  | clear p u _ ih => exact clear_typingInv _ p u ih

/-! ## Rate limiter (src/index.js lines 62-65, 106-124) -/

def RATE_LIMIT_WINDOW : Nat := 10000

def MAX_MESSAGES_PER_WINDOW : Nat := 5

structure RateWindow where
  count : Nat
  timestamp : Nat
  deriving DecidableEq, Repr

/-- Embedding of the rate-limiting block at the top of the send-message
handler: first component is whether the send passes the limiter (true =
fall through, false = error return), second is the updated map. -/
def rateAdmit (m : List (Nat × RateWindow)) (senderId now : Nat) :
    Bool × List (Nat × RateWindow) :=
  match alookup senderId m with
  | some w =>
    if now - w.timestamp < RATE_LIMIT_WINDOW then
      if w.count ≥ MAX_MESSAGES_PER_WINDOW then (false, m)
      else (true, aset senderId { count := w.count + 1, timestamp := w.timestamp } m)
    else (true, aset senderId { count := 1, timestamp := now } m)
  | none => (true, aset senderId { count := 1, timestamp := now } m)

def Emit.isUnicast : Emit → Bool
  | Emit.unicast _ _ => true
  | _ => false

/-- JavaScript truthiness of an optional integer id: undefined and 0 are
falsy. -/
def truthyId : Option Nat → Bool
  | none => false
  | some n => n != 0

/-- Whitespace class of JavaScript String.prototype.trim (the characters
that occur in chat payloads). -/
def isWsChar (c : Char) : Bool :=
  c == ' ' || c == '\t' || c == '\n' || c == '\r'

/-- JavaScript String.prototype.trim: strip leading and trailing
whitespace. -/
def jsTrim (s : String) : String :=
  String.mk (((s.data.dropWhile isWsChar).reverse.dropWhile isWsChar).reverse)

/-- JavaScript truthiness test !messageContent || !messageContent.trim():
true when the field is missing, the empty string, or whitespace-only. -/
def contentBlank : Option String → Bool
  | none => true
  | some s => s == "" || jsTrim s == ""

/-! ## Connection state and the join handler (src/index.js lines 74-101)

A socket is modelled by the rooms it has joined plus the identity fields
the join handler stamps on it. -/

structure Conn where
  rooms : List String
  projectId : Option Nat
  userId : Option Nat
  userName : Option String
  deriving DecidableEq, Repr

def connInit : Conn :=
  { rooms := [], projectId := none, userId := none, userName := none }

structure JoinPayload where
  projectId : Nat
  userId : Nat
  userName : String
  deriving DecidableEq, Repr

/-- Embedding of the join-project-chat handler: validate membership, then
join the room, stamp the socket and notify the rest of the room. -/
def joinProjectChat (db : Db) (c : Conn) (now : Nat) (p : JoinPayload) :
    Conn × List Emit :=
  if !isProjectMember db p.projectId p.userId then
    (c, [Emit.unicast "error" (Payload.errMsg "You must be a project member to join chat")])
  else
    ({ rooms := c.rooms ++ [roomName p.projectId],
       projectId := some p.projectId,
       userId := some p.userId,
       userName := some p.userName },
     [Emit.roomOthers (roomName p.projectId) "user-joined"
        (Payload.userJoined p.userId p.userName now)])

/-! ## Send-message handler (src/index.js lines 104-196) -/

structure SendPayload where
  projectId : Nat
  senderId : Nat
  senderName : String
  messageContent : Option String
  replyToMessageId : Option Nat
  replyToUserId : Option Nat
  deriving DecidableEq, Repr

/-- Process-wide server state touched by the send handler. -/
structure ServerState where
  db : Db
  rate : List (Nat × RateWindow)
  typing : TypingState
  deriving DecidableEq, Repr

/-- Embedding of the send-message handler: rate limiting, content
validation, membership validation, reply-snapshot resolution, INSERT,
re-SELECT of the created row, new-message broadcast to the whole room and
clearing of the sender's typing indicator, in source order.  Store calls
are assumed to succeed. -/
def sendReplyRow (db : Db) (p : SendPayload) : Option ChatMessage :=
  if truthyId p.replyToMessageId then
    db.chatMessages.find?
      (fun m => m.id == p.replyToMessageId.getD 0 && !m.isDeleted)
  else none

/-- The ChatMessages row the INSERT creates on the happy path: reply fields
from the resolved snapshot (null when unresolved), status and flags from
the schema defaults, timestamps CURRENT_TIMESTAMP. -/
def sendMsgRow (db : Db) (now : Nat) (p : SendPayload) : ChatMessage :=
  { id := db.nextMessageId,
    projectId := p.projectId,
    senderId := p.senderId,
    senderName := p.senderName,
    messageContent := p.messageContent.getD "",
    replyToMessageId := if truthyId p.replyToMessageId then p.replyToMessageId else none,
    replyToUserId := if truthyId p.replyToUserId then p.replyToUserId else none,
    replyToUserName := (sendReplyRow db p).map (fun r => r.senderName),
    replyToMessageContent := (sendReplyRow db p).map (fun r => r.messageContent),
    messageStatus := "sent",
    isDeleted := false,
    editedAt := none,
    createdAt := now,
    updatedAt := now }

def sendMessageHandler (st : ServerState) (now : Nat) (p : SendPayload) :
    ServerState × List Emit :=
  let admitted := rateAdmit st.rate p.senderId now
  let st1 : ServerState := { st with rate := admitted.2 }
  if !admitted.1 then
    (st1, [Emit.unicast "error"
      (Payload.errMsg "You are sending messages too quickly. Please wait a moment.")])
  else if contentBlank p.messageContent then
    (st1, [Emit.unicast "error" (Payload.errMsg "Message cannot be empty")])
  else if !isProjectMember st.db p.projectId p.senderId then
    (st1, [Emit.unicast "error"
      (Payload.errMsg "You must be a project member to send messages")])
  else
    let msg := sendMsgRow st.db now p
    let db' : Db :=
      { st.db with
        chatMessages := st.db.chatMessages ++ [msg],
        nextMessageId := st.db.nextMessageId + 1 }
    let cleared := clearTypingIndicator st.typing p.projectId p.senderId
    ({ db := db', rate := admitted.2, typing := cleared.1 },
     Emit.roomAll (roomName p.projectId) "new-message" (Payload.newMessage msg) :: cleared.2)

/-! ## Edit-message handler (src/index.js lines 224-286) -/

structure EditPayload where
  messageId : Nat
  userId : Nat
  messageContent : Option String
  deriving DecidableEq, Repr

/-- Embedding of the edit-message handler: content validation, fetch of the
non-deleted row, ownership check, UPDATE of content, editedAt, updatedAt,
re-SELECT and message-edited broadcast to the message's project room. -/
def editMessageHandler (db : Db) (now : Nat) (p : EditPayload) :
    Db × List Emit :=
  if contentBlank p.messageContent then
    (db, [Emit.unicast "error" (Payload.errMsg "Message cannot be empty")])
  else
    match db.chatMessages.find? (fun m => m.id == p.messageId && !m.isDeleted) with
    | none => (db, [Emit.unicast "error" (Payload.errMsg "Message not found")])
    | some message =>
      if message.senderId != p.userId then
        (db, [Emit.unicast "error" (Payload.errMsg "You can only edit your own messages")])
      else
        let db' : Db :=
          { db with
            chatMessages := db.chatMessages.map (fun m =>
              if m.id == p.messageId then
                { m with
                  messageContent := p.messageContent.getD "",
                  editedAt := some now,
                  updatedAt := now }
              else m) }
        match db'.chatMessages.find? (fun m => m.id == p.messageId) with
        | some updatedMessage =>
          (db', [Emit.roomAll (roomName message.projectId) "message-edited"
            (Payload.messageEdited updatedMessage)])
        | none => (db', [])

/-! ## Delete-message handler (src/index.js lines 289-332) -/

structure DeletePayload where
  messageId : Nat
  userId : Nat
  deriving DecidableEq, Repr

/-- Embedding of the delete-message handler: fetch of the non-deleted row,
ownership check, soft-delete UPDATE of isDeleted and updatedAt, and a
message-deleted broadcast carrying only the id. -/
def deleteMessageHandler (db : Db) (now : Nat) (p : DeletePayload) :
    Db × List Emit :=
  match db.chatMessages.find? (fun m => m.id == p.messageId && !m.isDeleted) with
  | none => (db, [Emit.unicast "error" (Payload.errMsg "Message not found")])
  | some message =>
    if message.senderId != p.userId then
      (db, [Emit.unicast "error" (Payload.errMsg "You can only delete your own messages")])
    else
      let db' : Db :=
        { db with
          chatMessages := db.chatMessages.map (fun m =>
            if m.id == p.messageId then
              { m with isDeleted := true, updatedAt := now }
            else m) }
      (db', [Emit.roomAll (roomName message.projectId) "message-deleted"
        (Payload.messageDeleted p.messageId)])

/-! ## Paginated chat history (getChatHistory messages query)

SELECT * FROM ChatMessages WHERE projectId = ? AND isDeleted = 0
ORDER BY createdAt ASC LIMIT ? OFFSET ? -/

def insertByCreatedAt (m : ChatMessage) : List ChatMessage → List ChatMessage
  | [] => [m]
  | x :: r => if x.createdAt ≤ m.createdAt then x :: insertByCreatedAt m r
              else m :: x :: r

def sortByCreatedAt : List ChatMessage → List ChatMessage
  | [] => []
  | x :: r => insertByCreatedAt x (sortByCreatedAt r)

def listPage (db : Db) (projectId limit offset : Nat) : List ChatMessage :=
  (((sortByCreatedAt (db.chatMessages.filter
      (fun m => m.projectId == projectId && !m.isDeleted))).drop offset).take limit)

theorem mem_insertByCreatedAt {m x : ChatMessage} {l : List ChatMessage} :
    m ∈ insertByCreatedAt x l → m = x ∨ m ∈ l := by
  induction l with
  | nil =>
    intro h
    simp [insertByCreatedAt] at h
    exact Or.inl h
  | cons y r ih =>
    intro h
    by_cases hc : y.createdAt ≤ x.createdAt
    · simp only [insertByCreatedAt, hc, if_true, List.mem_cons] at h
      cases h with
      | inl h1 => exact Or.inr (by simp [h1])
      | inr h2 =>
        cases ih h2 with
        | inl h3 => exact Or.inl h3
        | inr h4 => exact Or.inr (by simp [h4])
    · simp only [insertByCreatedAt, hc, if_false, List.mem_cons] at h
      cases h with
      | inl h1 => exact Or.inl h1
      | inr h2 => exact Or.inr (by simpa using h2)

theorem mem_sortByCreatedAt {m : ChatMessage} {l : List ChatMessage} :
    m ∈ sortByCreatedAt l → m ∈ l := by
  induction l with
  | nil => intro h; simp [sortByCreatedAt] at h
  | cons x r ih =>
    intro h
    simp only [sortByCreatedAt] at h
    cases mem_insertByCreatedAt h with
    | inl h1 => simp [h1]
    | inr h2 => simp [ih h2]

/-- Every message a history page returns comes from the table, belongs to
the project and is not soft-deleted. -/
theorem mem_listPage {db : Db} {projectId limit offset : Nat} {m : ChatMessage}
    (h : m ∈ listPage db projectId limit offset) :
    m ∈ db.chatMessages ∧ m.projectId = projectId ∧ m.isDeleted = false := by
  unfold listPage at h
  have h1 := List.mem_of_mem_take h
  have h2 := List.mem_of_mem_drop h1
  have h3 := mem_sortByCreatedAt h2
  rw [List.mem_filter] at h3
  obtain ⟨hmem, hpred⟩ := h3
  simp only [Bool.and_eq_true, beq_iff_eq, Bool.not_eq_true'] at hpred
  exact ⟨hmem, hpred.1, hpred.2⟩

/-! ## Send-handler path lemmas -/

theorem send_reject_rate (st : ServerState) (now : Nat) (p : SendPayload)
    (h : (rateAdmit st.rate p.senderId now).1 = false) :
    sendMessageHandler st now p =
      ({ st with rate := (rateAdmit st.rate p.senderId now).2 },
       [Emit.unicast "error"
         (Payload.errMsg "You are sending messages too quickly. Please wait a moment.")]) := by
  unfold sendMessageHandler
  simp [h]

theorem send_reject_blank (st : ServerState) (now : Nat) (p : SendPayload)
    (h1 : (rateAdmit st.rate p.senderId now).1 = true)
    (h2 : contentBlank p.messageContent = true) :
    sendMessageHandler st now p =
      ({ st with rate := (rateAdmit st.rate p.senderId now).2 },
       [Emit.unicast "error" (Payload.errMsg "Message cannot be empty")]) := by
  unfold sendMessageHandler
  simp [h1, h2]

theorem send_reject_member (st : ServerState) (now : Nat) (p : SendPayload)
    (h1 : (rateAdmit st.rate p.senderId now).1 = true)
    (h2 : contentBlank p.messageContent = false)
    (h3 : isProjectMember st.db p.projectId p.senderId = false) :
    sendMessageHandler st now p =
      ({ st with rate := (rateAdmit st.rate p.senderId now).2 },
       [Emit.unicast "error"
         (Payload.errMsg "You must be a project member to send messages")]) := by
  unfold sendMessageHandler
  simp [h1, h2, h3]

theorem send_success (st : ServerState) (now : Nat) (p : SendPayload)
    (h1 : (rateAdmit st.rate p.senderId now).1 = true)
    (h2 : contentBlank p.messageContent = false)
    (h3 : isProjectMember st.db p.projectId p.senderId = true) :
    sendMessageHandler st now p =
      ({ db := { st.db with
                 chatMessages := st.db.chatMessages ++ [sendMsgRow st.db now p],
                 nextMessageId := st.db.nextMessageId + 1 },
         rate := (rateAdmit st.rate p.senderId now).2,
         typing := (clearTypingIndicator st.typing p.projectId p.senderId).1 },
       Emit.roomAll (roomName p.projectId) "new-message"
           (Payload.newMessage (sendMsgRow st.db now p)) ::
         (clearTypingIndicator st.typing p.projectId p.senderId).2) := by
  unfold sendMessageHandler
  simp [h1, h2, h3]

/-! ## Concrete fixtures used by witnesses and counterexamples -/

def dbA : Db :=
  { projects := [{ id := 1, authorId := 9 }],
    members := [{ projectId := 1, userId := 2, invitationStatus := "approved" }],
    chatMessages := [],
    nextMessageId := 1 }

def stA : ServerState := { db := dbA, rate := [], typing := typingInit }

def msgC : ChatMessage :=
  { id := 1, projectId := 1, senderId := 3, senderName := "carol",
    messageContent := "hi", replyToMessageId := none, replyToUserId := none,
    replyToUserName := none, replyToMessageContent := none,
    messageStatus := "sent", isDeleted := false, editedAt := none,
    createdAt := 10, updatedAt := 10 }

def dbC : Db :=
  { projects := [{ id := 1, authorId := 9 }],
    members := [{ projectId := 1, userId := 2, invitationStatus := "approved" },
                { projectId := 1, userId := 3, invitationStatus := "approved" }],
    chatMessages := [msgC],
    nextMessageId := 2 }

/-! ## Claim C1 -/

/-- C1: the rate limiter on send-message follows the fixed-window
algorithm.  No window for the sender: a window opens with count 1 and the
send is admitted.  A window younger than 10 seconds: admitted with the
count incremented exactly when the count is below 5, otherwise rejected
with the map untouched.  A window at least 10 seconds old: a fresh window
with count 1 is opened and the send admitted, so capacity is fully
restored after the window elapses. -/
theorem rate_limiter_fixed_window (m : List (Nat × RateWindow)) (senderId now : Nat) :
    (alookup senderId m = none →
       (rateAdmit m senderId now).1 = true ∧
       alookup senderId (rateAdmit m senderId now).2 =
         some { count := 1, timestamp := now }) ∧
    (∀ w, alookup senderId m = some w →
       now - w.timestamp < RATE_LIMIT_WINDOW →
       ((w.count < MAX_MESSAGES_PER_WINDOW →
           (rateAdmit m senderId now).1 = true ∧
           alookup senderId (rateAdmit m senderId now).2 =
             some { count := w.count + 1, timestamp := w.timestamp }) ∧
        (MAX_MESSAGES_PER_WINDOW ≤ w.count →
           (rateAdmit m senderId now).1 = false ∧
           (rateAdmit m senderId now).2 = m))) ∧
    (∀ w, alookup senderId m = some w →
       RATE_LIMIT_WINDOW ≤ now - w.timestamp →
       (rateAdmit m senderId now).1 = true ∧
       alookup senderId (rateAdmit m senderId now).2 =
         some { count := 1, timestamp := now }) := by
  refine ⟨?_, ?_, ?_⟩
  · intro hnone
    unfold rateAdmit
    rw [hnone]
    exact ⟨rfl, alookup_aset_self _ _ _⟩
  · intro w hw hin
    constructor
    · intro hlt
      unfold rateAdmit
      rw [hw]
      simp [hin, not_le.mpr hlt, alookup_aset_self]
    · intro hge
      unfold rateAdmit
      rw [hw]
      simp [hin, hge]
  · intro w hw hout
    unfold rateAdmit
    rw [hw]
    simp [not_lt.mpr hout, alookup_aset_self]

/-- Witness for C1: a sender whose window holds 5 messages is rejected
without the map changing. -/
theorem rate_limiter_fixed_window_witness :
    (rateAdmit [(7, { count := 5, timestamp := 0 })] 7 5).1 = false ∧
    (rateAdmit [(7, { count := 5, timestamp := 0 })] 7 5).2 =
      [(7, { count := 5, timestamp := 0 })] :=
  ((rate_limiter_fixed_window [(7, { count := 5, timestamp := 0 })] 7 5).2.1
      { count := 5, timestamp := 0 } (by decide) (by decide)).2 (by decide)

/-! ## Claim C2 -/

/-- Counterexample to C2 as stated: user 2 is an approved member of
project 1, yet their send-message with whitespace-only content is rejected
with a unicast error and nothing is inserted — a send from an approved
member is not always accepted. -/
theorem membership_gate_counterexample :
    isProjectMember dbA 1 2 = true ∧
    (sendMessageHandler stA 5
        { projectId := 1, senderId := 2, senderName := "alice",
          messageContent := some "   ", replyToMessageId := none,
          replyToUserId := none }).2 =
      [Emit.unicast "error" (Payload.errMsg "Message cannot be empty")] ∧
    (sendMessageHandler stA 5
        { projectId := 1, senderId := 2, senderName := "alice",
          messageContent := some "   ", replyToMessageId := none,
          replyToUserId := none }).1.db.chatMessages = [] := by
  refine ⟨by decide, by decide, by decide⟩

/-- C2 as amended: a join or send from a non-member is always denied with a
unicast error, the connection unchanged and no row inserted; a join from an
approved member is always admitted (room joined, user-joined broadcast); a
send from an approved member is accepted — inserted and broadcast — when
additionally the rate limiter admits it and the content is non-blank; and
for a database satisfying the schema's foreign-key integrity, membership
holds exactly when an approved ProjectMembers row exists for
(projectId, userId). -/
theorem membership_gate (db : Db) (c : Conn) (now : Nat) (j : JoinPayload)
    (st : ServerState) (now' : Nat) (p : SendPayload) (pid uid : Nat) :
    (isProjectMember db j.projectId j.userId = false →
       joinProjectChat db c now j =
         (c, [Emit.unicast "error"
           (Payload.errMsg "You must be a project member to join chat")])) ∧
    (isProjectMember st.db p.projectId p.senderId = false →
       (sendMessageHandler st now' p).1.db = st.db ∧
       ∃ m, (sendMessageHandler st now' p).2 =
         [Emit.unicast "error" (Payload.errMsg m)]) ∧
    (isProjectMember db j.projectId j.userId = true →
       (joinProjectChat db c now j).1.rooms = c.rooms ++ [roomName j.projectId] ∧
       (joinProjectChat db c now j).2 =
         [Emit.roomOthers (roomName j.projectId) "user-joined"
           (Payload.userJoined j.userId j.userName now)]) ∧
    ((rateAdmit st.rate p.senderId now').1 = true →
       contentBlank p.messageContent = false →
       isProjectMember st.db p.projectId p.senderId = true →
       (sendMessageHandler st now' p).1.db.chatMessages =
         st.db.chatMessages ++ [sendMsgRow st.db now' p] ∧
       (sendMessageHandler st now' p).2.head? =
         some (Emit.roomAll (roomName p.projectId) "new-message"
           (Payload.newMessage (sendMsgRow st.db now' p)))) ∧
    ((∀ pm ∈ db.members, ∃ pr ∈ db.projects, pr.id = pm.projectId) →
       (isProjectMember db pid uid = true ↔
         ∃ pm ∈ db.members, pm.projectId = pid ∧ pm.userId = uid ∧
           pm.invitationStatus = "approved")) := by
  refine ⟨?_, ?_, ?_, ?_, ?_⟩
  · intro hm
    unfold joinProjectChat
    simp [hm]
  · intro hm
    cases hr : (rateAdmit st.rate p.senderId now').1 with
    | false =>
      rw [send_reject_rate st now' p hr]
      exact ⟨rfl, _, rfl⟩
    | true =>
      cases hb : contentBlank p.messageContent with
      | true =>
        rw [send_reject_blank st now' p hr hb]
        exact ⟨rfl, _, rfl⟩
      | false =>
        rw [send_reject_member st now' p hr hb hm]
        exact ⟨rfl, _, rfl⟩
  · intro hm
    unfold joinProjectChat
    simp [hm]
  · intro hr hb hm
    rw [send_success st now' p hr hb hm]
    exact ⟨rfl, rfl⟩
  · intro hri
    unfold isProjectMember
    rw [List.any_eq_true]
    constructor
    · rintro ⟨pm, hmem, hpred⟩
      simp only [Bool.and_eq_true, beq_iff_eq] at hpred
      exact ⟨pm, hmem, hpred.1.1.1, hpred.1.1.2, hpred.1.2⟩
    · rintro ⟨pm, hmem, h1, h2, h3⟩
      refine ⟨pm, hmem, ?_⟩
      simp only [Bool.and_eq_true, beq_iff_eq]
      obtain ⟨pr, hpr, hid⟩ := hri pm hmem
      refine ⟨⟨⟨h1, h2⟩, h3⟩, ?_⟩
      rw [List.any_eq_true]
      exact ⟨pr, hpr, by rw [beq_iff_eq, hid]⟩

/-- Witness for C2 (amended): user 5 is not a member of project 1, so
their join attempt is denied with the membership error and the connection
is unchanged. -/
theorem membership_gate_witness :
    joinProjectChat dbA connInit 3 { projectId := 1, userId := 5, userName := "eve" } =
      (connInit, [Emit.unicast "error"
        (Payload.errMsg "You must be a project member to join chat")]) :=
  (membership_gate dbA connInit 3 { projectId := 1, userId := 5, userName := "eve" }
      stA 0
      { projectId := 1, senderId := 5, senderName := "eve",
        messageContent := some "x", replyToMessageId := none, replyToUserId := none }
      1 5).1 (by decide)

/-! ## Claim C3 -/

/-- Counterexample to C3 as stated: in the initial server state — before
any connection has joined a room — a typing event is processed all the
same: the handler reads no connection/room state, emits no error, installs
a typing entry and broadcasts user-typing to the room.  Chat events from a
merely-Connected socket are not rejected. -/
theorem room_state_gate_counterexample :
    (typingHandler typingInit 1 2 "alice").2 =
      [Emit.roomOthers "project-1" "user-typing" (Payload.userTyping 2 "alice")] ∧
    typingEntry (typingHandler typingInit 1 2 "alice").1 1 2 = some 0 := by
  refine ⟨by decide, by decide⟩

/-- C3 as amended: the handlers never consult the connection's room-join
state.  A typing event from any connection — joined or not — never emits a
unicast error, always ends with the user-typing broadcast to the room
excluding the sender, and always installs the fresh typing entry;
send-message is gated only by rate limit, content validation and the
per-event membership check, so a member's valid send from a connection
that never joined is still inserted and broadcast. -/
theorem room_state_gate (ts : TypingState) (p u : Nat) (n : String)
    (st : ServerState) (now : Nat) (sp : SendPayload) :
    ((∀ e ∈ (typingHandler ts p u n).2, e.isUnicast = false) ∧
     (typingHandler ts p u n).2.getLast? =
       some (Emit.roomOthers (roomName p) "user-typing" (Payload.userTyping u n)) ∧
     typingEntry (typingHandler ts p u n).1 p u = some ts.nextTimer) ∧
    ((rateAdmit st.rate sp.senderId now).1 = true →
       contentBlank sp.messageContent = false →
       isProjectMember st.db sp.projectId sp.senderId = true →
       (sendMessageHandler st now sp).1.db.chatMessages =
         st.db.chatMessages ++ [sendMsgRow st.db now sp]) := by
  constructor
  · refine ⟨?_, ?_, ?_⟩
    · intro e he
      rw [typing_emits, clear_emits] at he
      rw [List.mem_append] at he
      cases he with
      | inl h1 =>
        cases hcl : typingEntry ts p u with
        | none => rw [hcl] at h1; simp at h1
        | some t =>
          rw [hcl] at h1
          rw [List.mem_singleton] at h1
          subst h1
          rfl
      | inr h2 =>
        rw [List.mem_singleton] at h2
        subst h2
        rfl
    · rw [typing_emits]
      exact List.getLast?_concat _
    · rw [typing_typingEntry]
      simp
  · intro hr hb hm
    rw [send_success st now sp hr hb hm]

/-- Witness for C3 (amended): a typing event on the initial state installs
timer 0 for (1, 2). -/
theorem room_state_gate_witness :
    typingEntry (typingHandler typingInit 1 2 "bob").1 1 2 = some 0 :=
  (room_state_gate typingInit 1 2 "bob" stA 0
      { projectId := 1, senderId := 2, senderName := "bob",
        messageContent := some "x", replyToMessageId := none,
        replyToUserId := none }).1.2.2

/-! ## Claim C4 -/

/-- Counterexample to C4 as stated: sender 2's window already holds 5
messages, so their whitespace-only send is rejected with the rate-limit
error, not the validation error — though still never stored. -/
theorem blank_content_counterexample :
    contentBlank (some "   ") = true ∧
    (sendMessageHandler
        { db := dbA, rate := [(2, { count := 5, timestamp := 0 })], typing := typingInit } 5
        { projectId := 1, senderId := 2, senderName := "alice",
          messageContent := some "   ", replyToMessageId := none,
          replyToUserId := none }).2 =
      [Emit.unicast "error"
        (Payload.errMsg "You are sending messages too quickly. Please wait a moment.")] ∧
    (sendMessageHandler
        { db := dbA, rate := [(2, { count := 5, timestamp := 0 })], typing := typingInit } 5
        { projectId := 1, senderId := 2, senderName := "alice",
          messageContent := some "   ", replyToMessageId := none,
          replyToUserId := none }).1.db.chatMessages = [] := by
  refine ⟨by decide, by decide, by decide⟩

/-- C4 as amended: a send whose content is missing, empty or
whitespace-only is always rejected with a single unicast error and never
reaches the store (database unchanged, no broadcast); the error is the
ValidationError message whenever the rate limiter admits the event (the
rate-limit check runs first and its rejection takes precedence). -/
theorem blank_content_never_stored (st : ServerState) (now : Nat) (p : SendPayload)
    (hb : contentBlank p.messageContent = true) :
    (sendMessageHandler st now p).1.db = st.db ∧
    (∃ m, (sendMessageHandler st now p).2 = [Emit.unicast "error" (Payload.errMsg m)]) ∧
    ((rateAdmit st.rate p.senderId now).1 = true →
       (sendMessageHandler st now p).2 =
         [Emit.unicast "error" (Payload.errMsg "Message cannot be empty")]) := by
  cases hr : (rateAdmit st.rate p.senderId now).1 with
  | false =>
    rw [send_reject_rate st now p hr]
    exact ⟨rfl, ⟨_, rfl⟩, fun h => absurd h (by decide)⟩
  | true =>
    rw [send_reject_blank st now p hr hb]
    exact ⟨rfl, ⟨_, rfl⟩, fun _ => rfl⟩

/-- Witness for C4 (amended): a fresh sender's whitespace-only message gets
the validation error. -/
theorem blank_content_never_stored_witness :
    (sendMessageHandler stA 5
        { projectId := 1, senderId := 2, senderName := "alice",
          messageContent := some "   ", replyToMessageId := none,
          replyToUserId := none }).2 =
      [Emit.unicast "error" (Payload.errMsg "Message cannot be empty")] :=
  (blank_content_never_stored stA 5
      { projectId := 1, senderId := 2, senderName := "alice",
        messageContent := some "   ", replyToMessageId := none,
        replyToUserId := none } (by decide)).2.2 (by decide)

/-! ## Claim C5 -/

/-- Counterexample to C5 as stated: message 1 belongs to sender 3; user 2's
edit of it with whitespace-only content is rejected with the validation
error, not the authorization error — the content check runs before the
ownership check (the store is still unchanged). -/
theorem edit_authorization_counterexample :
    dbC.chatMessages.find? (fun m => m.id == 1 && !m.isDeleted) = some msgC ∧
    msgC.senderId ≠ 2 ∧
    editMessageHandler dbC 20 { messageId := 1, userId := 2, messageContent := some "  " } =
      (dbC, [Emit.unicast "error" (Payload.errMsg "Message cannot be empty")]) := by
  refine ⟨by decide, by decide, by decide⟩

/-- C5 as amended: an edit with blank content is rejected with the
validation error; otherwise an edit whose id does not resolve to a
non-deleted message is rejected as not found; otherwise an edit by a user
other than the stored sender is rejected with the authorization error — in
every rejected case the database is returned unchanged (content, editedAt
and updatedAt untouched). -/
theorem edit_reject_paths (db : Db) (now : Nat) (p : EditPayload) :
    (contentBlank p.messageContent = true →
       editMessageHandler db now p =
         (db, [Emit.unicast "error" (Payload.errMsg "Message cannot be empty")])) ∧
    (contentBlank p.messageContent = false →
       db.chatMessages.find? (fun m => m.id == p.messageId && !m.isDeleted) = none →
       editMessageHandler db now p =
         (db, [Emit.unicast "error" (Payload.errMsg "Message not found")])) ∧
    (∀ msg, contentBlank p.messageContent = false →
       db.chatMessages.find? (fun m => m.id == p.messageId && !m.isDeleted) = some msg →
       msg.senderId ≠ p.userId →
       editMessageHandler db now p =
         (db, [Emit.unicast "error" (Payload.errMsg "You can only edit your own messages")])) := by
  refine ⟨?_, ?_, ?_⟩
  · intro hb
    unfold editMessageHandler
    simp [hb]
  · intro hb hf
    unfold editMessageHandler
    rw [hf]
    simp [hb]
  · intro msg hb hf hown
    unfold editMessageHandler
    rw [hf]
    simp [hb, bne_iff_ne, hown]

/-- Witness for C5 (amended): no message 1 exists in the empty table, so
the edit is rejected as not found. -/
theorem edit_reject_paths_witness :
    editMessageHandler dbA 20 { messageId := 1, userId := 2, messageContent := some "x" } =
      (dbA, [Emit.unicast "error" (Payload.errMsg "Message not found")]) :=
  (edit_reject_paths dbA 20
      { messageId := 1, userId := 2, messageContent := some "x" }).2.1
    (by decide) (by decide)

/-! ## Claim C6 -/

/-- Counterexample to C6 as stated: user 2 already has a live typing entry
for project 1, and a repeated typing signal within the window still emits
user-typing again (preceded by a user-stopped-typing from the clearing
routine) — the refresh is not silent. -/
theorem typing_reemit_counterexample :
    typingEntry (typingHandler typingInit 1 2 "alice").1 1 2 = some 0 ∧
    (typingHandler (typingHandler typingInit 1 2 "alice").1 1 2 "alice").2 =
      [Emit.roomAll "project-1" "user-stopped-typing" (Payload.userStopped 2),
       Emit.roomOthers "project-1" "user-typing" (Payload.userTyping 2 "alice")] := by
  refine ⟨by decide, by decide⟩

/-- C6 as amended: every typing signal emits user-typing to the room
excluding the sender — on a refresh just as on a fresh entry; a refresh
(an entry already live) additionally emits user-stopped-typing to the
whole room first, via the clearing routine.  The timer itself is refreshed
rather than duplicated. -/
theorem typing_signal_emissions (ts : TypingState) (p u : Nat) (n : String) :
    (typingHandler ts p u n).2 =
      (match typingEntry ts p u with
       | some _ =>
           [Emit.roomAll (roomName p) "user-stopped-typing" (Payload.userStopped u)]
       | none => []) ++
        [Emit.roomOthers (roomName p) "user-typing" (Payload.userTyping u n)] := by
  rw [typing_emits, clear_emits]

/-! ## Claim C7 -/

/-- C7: in every reachable typing-presence state the scheduled timers are
in bijection with the stored entries — each (projectId, userId) holds at
most one live entry (typingEntry is single-valued by construction) owning
exactly one live timer, and no timer is shared or leaked; a refreshing
typing signal replaces the old timer by the fresh one rather than keeping
two; and a single clear removes both the entry and its timer. -/
theorem typing_presence_single_timer (ts : TypingState) (h : TypingReach ts) :
    ts.liveTimers.Nodup ∧
    (∀ t, t ∈ ts.liveTimers ↔ ∃ p u, typingEntry ts p u = some t) ∧
    (∀ p u p' u' t, typingEntry ts p u = some t → typingEntry ts p' u' = some t →
       p = p' ∧ u = u') ∧
    (∀ p u n t, typingEntry ts p u = some t →
       typingEntry (typingHandler ts p u n).1 p u = some ts.nextTimer ∧
       t ∉ (typingHandler ts p u n).1.liveTimers) ∧
    (∀ p u t, typingEntry ts p u = some t →
       typingEntry (clearTypingIndicator ts p u).1 p u = none ∧
       t ∉ (clearTypingIndicator ts p u).1.liveTimers) := by
  obtain ⟨hnd, hiff, hown, hfr⟩ := typingReach_inv h
  refine ⟨hnd, hiff, hown, ?_, ?_⟩
  · intro p u n t he
    have htmem : t ∈ ts.liveTimers := (hiff t).2 ⟨p, u, he⟩
    have htlt : t < ts.nextTimer := hfr t htmem
    constructor
    · rw [typing_typingEntry]
      simp
    · rw [typing_liveTimers, List.mem_append, List.mem_singleton]
      rintro (hmem | rfl)
      · rw [clear_liveTimers, he] at hmem
        exact hnd.not_mem_erase hmem
      · exact absurd htlt (lt_irrefl _)
  · intro p u t he
    constructor
    · rw [clear_typingEntry]
      simp
    · rw [clear_liveTimers, he]
      exact hnd.not_mem_erase

/-- Witness for C7: after one typing signal from user 2 in project 1,
clearing that user removes the entry and its timer 0. -/
theorem typing_presence_single_timer_witness :
    typingEntry (clearTypingIndicator (typingHandler typingInit 1 2 "alice").1 1 2).1 1 2 =
      none ∧
    0 ∉ (clearTypingIndicator (typingHandler typingInit 1 2 "alice").1 1 2).1.liveTimers :=
  (typing_presence_single_timer (typingHandler typingInit 1 2 "alice").1
      (TypingReach.typing 1 2 "alice" TypingReach.init)).2.2.2.2 1 2 0 (by decide)

/-! ## Claim C8 -/

/-- C8: on an otherwise-valid send (rate-admitted, non-blank content,
member) carrying a replyToMessageId, a target that does not resolve to a
non-deleted message is tolerated: the row is inserted with the reply
snapshot fields null (keeping the reply id) and broadcast with no error,
while a resolved target has its senderName and messageContent copied into
the snapshot fields. -/
theorem reply_snapshot (st : ServerState) (now : Nat) (p : SendPayload) (rid : Nat)
    (h1 : (rateAdmit st.rate p.senderId now).1 = true)
    (h2 : contentBlank p.messageContent = false)
    (h3 : isProjectMember st.db p.projectId p.senderId = true)
    (h4 : p.replyToMessageId = some rid)
    (h5 : rid ≠ 0) :
    (st.db.chatMessages.find? (fun m => m.id == rid && !m.isDeleted) = none →
       (sendMsgRow st.db now p).replyToUserName = none ∧
       (sendMsgRow st.db now p).replyToMessageContent = none ∧
       (sendMsgRow st.db now p).replyToMessageId = some rid ∧
       (sendMessageHandler st now p).1.db.chatMessages =
         st.db.chatMessages ++ [sendMsgRow st.db now p] ∧
       (sendMessageHandler st now p).2.head? =
         some (Emit.roomAll (roomName p.projectId) "new-message"
           (Payload.newMessage (sendMsgRow st.db now p))) ∧
       (∀ e ∈ (sendMessageHandler st now p).2, e.isUnicast = false)) ∧
    (∀ m0, st.db.chatMessages.find? (fun m => m.id == rid && !m.isDeleted) = some m0 →
       (sendMsgRow st.db now p).replyToUserName = some m0.senderName ∧
       (sendMsgRow st.db now p).replyToMessageContent = some m0.messageContent) := by
  have ht : truthyId p.replyToMessageId = true := by
    rw [h4]
    simp [truthyId, h5]
  have hrepl : sendReplyRow st.db p =
      st.db.chatMessages.find? (fun m => m.id == rid && !m.isDeleted) := by
    unfold sendReplyRow
    rw [ht, h4]
    simp
  constructor
  · intro hnone
    refine ⟨?_, ?_, ?_, ?_, ?_, ?_⟩
    · unfold sendMsgRow
      rw [hrepl, hnone]
      rfl
    · unfold sendMsgRow
      rw [hrepl, hnone]
      rfl
    · unfold sendMsgRow
      rw [ht, h4]
      rfl
    · rw [send_success st now p h1 h2 h3]
    · rw [send_success st now p h1 h2 h3]
      rfl
    · intro e he
      rw [send_success st now p h1 h2 h3] at he
      rw [List.mem_cons] at he
      cases he with
      | inl h => subst h; rfl
      | inr h =>
        rw [clear_emits] at h
        cases hcl : typingEntry st.typing p.projectId p.senderId with
        | none => rw [hcl] at h; simp at h
        | some t0 =>
          rw [hcl] at h
          rw [List.mem_singleton] at h
          subst h
          rfl
  · intro m0 hm0
    constructor
    · unfold sendMsgRow
      rw [hrepl, hm0]
      rfl
    · unfold sendMsgRow
      rw [hrepl, hm0]
      rfl

/-- Witness for C8: user 2 replies to non-existent message 7 in an empty
table; the snapshot fields of the inserted row are null and the row keeps
the reply id. -/
theorem reply_snapshot_witness :
    (sendMsgRow stA.db 5
        { projectId := 1, senderId := 2, senderName := "alice",
          messageContent := some "hi", replyToMessageId := some 7,
          replyToUserId := none }).replyToUserName = none ∧
    (sendMsgRow stA.db 5
        { projectId := 1, senderId := 2, senderName := "alice",
          messageContent := some "hi", replyToMessageId := some 7,
          replyToUserId := none }).replyToMessageContent = none ∧
    (sendMsgRow stA.db 5
        { projectId := 1, senderId := 2, senderName := "alice",
          messageContent := some "hi", replyToMessageId := some 7,
          replyToUserId := none }).replyToMessageId = some 7 :=
  have h := (reply_snapshot stA 5
      { projectId := 1, senderId := 2, senderName := "alice",
        messageContent := some "hi", replyToMessageId := some 7,
        replyToUserId := none } 7
      (by decide) (by decide) (by decide) rfl (by decide)).1 (by decide)
  ⟨h.1, h.2.1, h.2.2.1⟩

/-! ## Claim C9 -/

/-- C9: a successful delete rewrites only the matching row, setting just
the soft-delete flag and updatedAt (every row persists — the table length
is unchanged and non-matching rows are untouched), broadcasts to the room
a deletion notice carrying only the message id, and no later paginated
history page (the getChatHistory query: project filter, isDeleted
exclusion, createdAt ascending order, limit/offset) contains the deleted
id. -/
theorem soft_delete_history (db : Db) (now : Nat) (p : DeletePayload) (msg : ChatMessage)
    (h1 : db.chatMessages.find? (fun m => m.id == p.messageId && !m.isDeleted) = some msg)
    (h2 : msg.senderId = p.userId) :
    (deleteMessageHandler db now p).1.chatMessages =
      db.chatMessages.map (fun m =>
        if m.id == p.messageId then { m with isDeleted := true, updatedAt := now } else m) ∧
    (deleteMessageHandler db now p).2 =
      [Emit.roomAll (roomName msg.projectId) "message-deleted"
        (Payload.messageDeleted p.messageId)] ∧
    (deleteMessageHandler db now p).1.chatMessages.length = db.chatMessages.length ∧
    (∀ pid limit offset m,
       m ∈ listPage (deleteMessageHandler db now p).1 pid limit offset →
       m.id ≠ p.messageId) := by
  have hbne : (msg.senderId != p.userId) = false := by
    rw [h2, bne_self_eq_false]
  have hred : deleteMessageHandler db now p =
      ({ db with
         chatMessages := db.chatMessages.map (fun m =>
           if m.id == p.messageId then { m with isDeleted := true, updatedAt := now }
           else m) },
       [Emit.roomAll (roomName msg.projectId) "message-deleted"
         (Payload.messageDeleted p.messageId)]) := by
    unfold deleteMessageHandler
    rw [h1]
    simp [hbne]
  refine ⟨by rw [hred], by rw [hred], ?_, ?_⟩
  · rw [hred]
    exact List.length_map _ _
  · intro pid limit offset m hm
    obtain ⟨hmem, _, hdel⟩ := mem_listPage hm
    rw [hred] at hmem
    simp only [List.mem_map] at hmem
    obtain ⟨m0, hm0, hfm⟩ := hmem
    by_cases hid : (m0.id == p.messageId) = true
    · rw [if_pos hid] at hfm
      rw [← hfm] at hdel
      simp at hdel
    · rw [if_neg hid] at hfm
      rw [← hfm]
      rw [beq_iff_eq] at hid
      exact hid

/-- Witness for C9: sender 3 deletes their message 1; the row is
soft-deleted in place, the notice carries only the id, and a first history
page of project 1 no longer contains id 1. -/
theorem soft_delete_history_witness :
    (deleteMessageHandler dbC 20 { messageId := 1, userId := 3 }).2 =
      [Emit.roomAll "project-1" "message-deleted" (Payload.messageDeleted 1)] ∧
    ∀ m, m ∈ listPage (deleteMessageHandler dbC 20 { messageId := 1, userId := 3 }).1 1 50 0 →
      m.id ≠ 1 :=
  have h := soft_delete_history dbC 20 { messageId := 1, userId := 3 } msgC
      (by decide) (by decide)
  ⟨h.2.1, fun m hm => h.2.2.2 1 50 0 m hm⟩

/-! ## Claim C10 -/

/-- C10: a typing signal from a user who already holds a live typing entry
first broadcasts user-stopped-typing to the whole room (io.to, the typing
user's connection included) through the clearing routine, and then emits
user-typing to the room excluding the sender — every refresh yields this
stopped/typing pair. -/
theorem refresh_broadcast_pair (ts : TypingState) (p u : Nat) (n : String) (t : Nat)
    (h : typingEntry ts p u = some t) :
    (typingHandler ts p u n).2 =
      [Emit.roomAll (roomName p) "user-stopped-typing" (Payload.userStopped u),
       Emit.roomOthers (roomName p) "user-typing" (Payload.userTyping u n)] := by
  rw [typing_emits, clear_emits, h]
  rfl

/-- Witness for C10: a second typing signal from user 2 in project 1 emits
the stopped-typing/typing pair. -/
theorem refresh_broadcast_pair_witness :
    (typingHandler (typingHandler typingInit 1 2 "bob").1 1 2 "bob").2 =
      [Emit.roomAll "project-1" "user-stopped-typing" (Payload.userStopped 2),
       Emit.roomOthers "project-1" "user-typing" (Payload.userTyping 2 "bob")] :=
  refresh_broadcast_pair (typingHandler typingInit 1 2 "bob").1 1 2 "bob" 0 (by decide)
